import Mathlib

/-!
# GhostForge `forge.py` — shallow embedding and verification

A model of the repair governor in `forge.py`: the policy pattern loader,
the added-line delta computation, the escalation gate, the test gate, the
snapshot manifest walk, and the `run_repair` pipeline, together with an
event trace recording audit-log inserts, staging, snapshotting and the
live commit write.

Strings are modelled as `List Char`.  Python's float percentage
arithmetic `int(min(100, (a/b)*100))` is modelled with exact natural
floor division `min 100 (a * 100 / b)`.  Regular expressions are
abstracted as a source text, a compilation flag and a Boolean search
function; the three built-in safety rails are given concrete search
semantics (literal substring, and word-boundary alternation).
-/

namespace GhostForge

/-- Python whitespace characters recognised by `str.strip` (ASCII subset). -/
def pyIsSpace (c : Char) : Bool :=
  c == ' ' || c == '\t' || c == '\n' || c == '\r' || c == '\x0b' || c == '\x0c'

/-- `s.strip()`: drop leading and trailing whitespace. -/
def pyStrip (l : List Char) : List Char :=
  ((l.dropWhile pyIsSpace).reverse.dropWhile pyIsSpace).reverse

/-- The truthiness test `if ln.strip()` fails exactly when every character
of `ln` is whitespace (in particular when `ln` is empty). -/
def stripBlank (l : List Char) : Bool := l.all pyIsSpace

/-- Auxiliary splitter: cut at each newline, keeping empty segments. -/
def splitlinesAux : List Char → List Char → List (List Char)
  | [], acc => [acc.reverse]
  | c :: cs, acc =>
    if c = '\n' then acc.reverse :: splitlinesAux cs []
    else splitlinesAux cs (c :: acc)

/-- Python `str.splitlines` restricted to the `'\n'` separator: the empty
string gives `[]`, and a trailing newline produces no final empty line. -/
def splitlines (s : List Char) : List (List Char) :=
  if s.isEmpty then []
  else if s.getLast? = some '\n' then (splitlinesAux s []).dropLast
  else splitlinesAux s []

/-- `needle` is an initial segment of `hay`. -/
def startsWithList : List Char → List Char → Bool
  | [], _ => true
  | _ :: _, [] => false
  | a :: as, b :: bs => a == b && startsWithList as bs

/-- Python substring membership `needle in hay`: `needle` occurs as a
contiguous run somewhere in `hay`. -/
def containsSub (needle : List Char) : List Char → Bool
  | [] => needle.isEmpty
  | c :: rest => startsWithList needle (c :: rest) || containsSub needle rest

/-- `added_lines` in `run_repair` (forge.py:284): the lines of the proposal
that are truthy after `strip()` and do not occur as a contiguous substring
anywhere in the original content (`ln not in original` is Python substring
membership on the full text, not whole-line membership). -/
def added_lines (new orig : List Char) : List (List Char) :=
  (splitlines new).filter (fun ln => !stripBlank ln && !containsSub ln orig)

/-- forge.py:285-286 — `base_lines = max(1, len(original.splitlines()))` and
`pct = int(min(100, (len(added_lines)/base_lines)*100))`, with the float
arithmetic modelled as exact natural floor division. -/
def delta_pct (new orig : List Char) : Nat :=
  min 100 ((added_lines new orig).length * 100 / max 1 (splitlines orig).length)

/-- A policy regular expression, abstracted: its source text, whether
`re.compile` succeeds on it, and the Boolean outcome of `re.search`
against given content. -/
structure Pattern where
  text : List Char
  compiles : Bool
  search : List Char → Bool

/-- Word characters for the regex `\b` boundary (`[A-Za-z0-9_]`). -/
def isWordChar (c : Char) : Bool := c.isAlphanum || c == '_'

/-- `re.search` for `\b(w₁|w₂|…)\b`: some listed word occurs with a
non-word character (or the end of the string) on both sides. -/
def searchWords (ws : List (List Char)) (s : List Char) : Bool :=
  (List.range (s.length + 1)).any fun i =>
    ws.any fun w =>
      ((s.drop i).take w.length == w) &&
      (match i with
       | 0 => true
       | j + 1 =>
         match s[j]? with
         | some c => !isWordChar c
         | none => true) &&
      (match s[i + w.length]? with
       | some c => !isWordChar c
       | none => true)

/-- The safety rail `(eval\()`: a literal `eval(` occurrence. -/
def eval_rail : Pattern := ⟨"(eval\\()".data, true, fun s => containsSub "eval(".data s⟩

/-- The safety rail `(exec\()`: a literal `exec(` occurrence. -/
def exec_rail : Pattern := ⟨"(exec\\()".data, true, fun s => containsSub "exec(".data s⟩

/-- The safety rail `\b(requests|httpx|socket)\b`. -/
def net_rail : Pattern :=
  ⟨"\\b(requests|httpx|socket)\\b".data, true,
    fun s => searchWords ["requests".data, "httpx".data, "socket".data] s⟩

/-- The three always-on safety rails appended by
`_load_repair_policy_patterns` (forge.py:207): `(eval\()`, `(exec\()` and
`\b(requests|httpx|socket)\b`. -/
def builtin_rails : List Pattern := [eval_rail, exec_rail, net_rail]

/-- `_load_repair_policy_patterns` (forge.py:197-208): the `pattern:`
entries collected from `repair.policy.yaml` with the safety rails
appended unconditionally afterwards. -/
def load_repair_policy_patterns (cfg : List Pattern) : List Pattern :=
  cfg ++ builtin_rails

/-- Outcome of loading and invoking one test unit: `value b` when the
module executes and `run()` (when present and callable) returns `b`,
with `b = true` when the module has no `run` attribute; `raises m` when
any exception escapes the load or the call. -/
inductive UnitResult where
  | value (b : Bool)
  | raises (msg : List Char)
deriving DecidableEq

/-- The per-unit record emitted by the gate. -/
inductive TestRecord where
  | passed (name : List Char)
  | failed (name : List Char)
  | errored (name msg : List Char)
deriving DecidableEq

/-- One iteration of the loop in `run_tests` (forge.py:220-236): a raised
exception is caught, recorded and forces the aggregate to `false`;
otherwise the unit verdict is conjoined into the aggregate. -/
def run_tests_step (acc : Bool × List TestRecord) (u : List Char × UnitResult) :
    Bool × List TestRecord :=
  match u.2 with
  | .value b => (acc.1 && b, acc.2 ++ [if b then .passed u.1 else .failed u.1])
  | .raises m => (false, acc.2 ++ [.errored u.1 m])

/-- `run_tests` (forge.py:218-237) over the sorted discovered units. -/
def run_tests (units : List (List Char × UnitResult)) : Bool × List TestRecord :=
  units.foldl run_tests_step (true, [])

/-- The verdict one unit contributes to the aggregate. -/
def unit_verdict : UnitResult → Bool
  | .value b => b
  | .raises _ => false

/-- A discovered test unit: its name and its outcome as a function of the
registry content visible to it when it executes. -/
structure TestUnit where
  name : List Char
  behavior : List Char → UnitResult

/-- Payload of an audit-log insert. -/
inductive Detail where
  | plain
  | patterns (ps : List (List Char))
  | escalation (strategy : List Char) (pct : Nat) (maxNoAck : Int)
  | budget (pct : Nat) (budgetPct : Int)
  | golden
  | snapshotInfo
  | applied (addedCount : Nat)
deriving DecidableEq

/-- Externally visible effects of `run_repair`, in program order. -/
inductive Event where
  | planWrite
  | warnInvalid (text : List Char)
  | auditInsert (actor action : List Char) (d : Detail)
  | stageCopy
  | snapZipWrite
  | snapIndexInsert
  | liveWrite
deriving DecidableEq

/-- The state `run_repair` reads: the freeze flag, the parsed guard and
escalation configuration, the live target-file content (empty when the
file does not exist), the timestamp used in the touch line, the policy
patterns parsed from `repair.policy.yaml`, whether the acknowledgment
artifact exists at the workspace root, and the discovered test units. -/
structure ForgeEnv where
  freezeFlag : Bool
  changeBudgetPct : Int
  requireGreen : Bool
  original : List Char
  touchTs : List Char
  cfgPatterns : List Pattern
  triggers : List (List Char)
  maxNoAck : Int
  ackFileExists : Bool
  testUnits : List TestUnit

/-- The marker `run_repair` looks for in the target file (forge.py:261). -/
def touchMarker : List Char := "# auto-repair touch".data

/-- forge.py:259-264 — the proposed new content for `core/registry.py`. -/
def proposal (env : ForgeEnv) : List Char :=
  if containsSub touchMarker env.original then env.original
  else env.original ++ "\n".data ++ touchMarker ++ ": ".data ++ env.touchTs ++ "\n".data

/-- forge.py:268-274: the loaded patterns that survive `re.compile`. -/
def valid_patterns (env : ForgeEnv) : List Pattern :=
  (load_repair_policy_patterns env.cfgPatterns).filter (·.compiles)

/-- forge.py:276: the valid patterns that `re.search` finds in the
proposed content. -/
def pattern_hits (env : ForgeEnv) : List Pattern :=
  (valid_patterns env).filter (fun p => p.search (proposal env))

/-- The computed change percentage for this attempt. -/
def repair_pct (env : ForgeEnv) : Nat := delta_pct (proposal env) env.original

/-- forge.py:295 — escalation triggers by strategy name or threshold. -/
def need_ack (env : ForgeEnv) (strategy : List Char) : Bool :=
  env.triggers.contains strategy || decide ((repair_pct env : Int) > env.maxNoAck)

/-- Aggregate verdict of the gate as the code computes it: `run_tests`
discovers units via the module-level `TESTS_DIR` under the live root, so
each unit observes the live (pre-commit) registry content. -/
def live_verdict (env : ForgeEnv) : Bool :=
  (run_tests (env.testUnits.map fun u => (u.name, u.behavior env.original))).1

/-- Modelled from the spec: the verdict §4.3 calls for — the gate running
against the staged copy, whose registry already carries the proposal. -/
def staged_verdict (env : ForgeEnv) : Bool :=
  (run_tests (env.testUnits.map fun u => (u.name, u.behavior (proposal env)))).1

/-- The `[warden] WARN` lines printed for policy patterns that fail
`re.compile` (forge.py:273-274), in load order. -/
def warn_events (env : ForgeEnv) : List Event :=
  ((load_repair_policy_patterns env.cfgPatterns).filter
      (fun p => !p.compiles)).map (fun p => Event.warnInvalid p.text)

/-- The events every non-frozen attempt emits before its policy verdict:
the `plan.json` write (forge.py:254) and the compile warnings. -/
def pre_events (env : ForgeEnv) : List Event :=
  Event.planWrite :: warn_events env

/-- Result of one repair attempt: the returned status code and the ordered
trace of externally visible effects. -/
structure RepairOutcome where
  status : Nat
  trace : List Event
deriving DecidableEq

/-- `run_repair` (forge.py:239-342).  The mis-indented `return 5` at
forge.py:303 is modelled faithfully: once escalation triggers, the
function returns 5 whether or not the acknowledgment file exists, and
performs the audit insert only when it is absent.  The test gate runs on
the live units (see `live_verdict`); the staged shadow copy is created
but not consulted afterwards. -/
def run_repair (env : ForgeEnv) (strategy : List Char) : RepairOutcome :=
  if env.freezeFlag then ⟨1, []⟩
  else if !(pattern_hits env).isEmpty then
    ⟨2, pre_events env ++
        [.auditInsert "warden".data "block".data
          (.patterns ((pattern_hits env).map (·.text)))]⟩
  else if need_ack env strategy then
    if !env.ackFileExists then
      ⟨5, pre_events env ++
          [.auditInsert "warden".data "escalation_required".data
            (.escalation strategy (repair_pct env) env.maxNoAck)]⟩
    else ⟨5, pre_events env⟩
  else if decide ((repair_pct env : Int) > env.changeBudgetPct) && !(need_ack env strategy) then
    ⟨3, pre_events env ++
        [.auditInsert "warden".data "reject_change_budget".data
          (.budget (repair_pct env) env.changeBudgetPct)]⟩
  else if env.requireGreen && !(live_verdict env) then
    ⟨4, pre_events env ++
        [.stageCopy, .auditInsert "tester".data "fail".data .golden]⟩
  else
    ⟨0, pre_events env ++
        [.stageCopy, .snapZipWrite, .snapIndexInsert,
         .auditInsert "forge".data "snapshot".data .snapshotInfo,
         .liveWrite,
         .auditInsert "rewriter".data "apply".data
           (.applied (added_lines (proposal env) env.original).length)]⟩

/-- Recognise an audit-log insert in a trace. -/
def isAuditInsert : Event → Bool
  | .auditInsert _ _ _ => true
  | _ => false

/-- Number of rows inserted into `audit_log` along a trace. -/
def audit_count (t : List Event) : Nat := (t.filter isAuditInsert).length

/-- One `os.walk` entry: a directory path relative to `ROOT` (as a list of
components, `[]` being the root itself) with the plain files it holds. -/
abbrev WalkEntry := List (List Char) × List (List Char)

/-- Files contributed by one walk entry in `create_snapshot`
(forge.py:171-184): a folder equal to `SNAP_DIR` or `FORGE_TMP` itself is
skipped, and a file whose path contains a `__pycache__` component is
dropped; subfolders of the skipped folders are *not* skipped. -/
def snapshot_entry_files (e : WalkEntry) : List (List (List Char)) :=
  if e.1 == ["snapshots".data] || e.1 == [".forge".data] then []
  else e.2.filterMap fun f =>
    if (e.1 ++ [f]).contains "__pycache__".data then none
    else some (e.1 ++ [f])

/-- The `included` manifest list built by `create_snapshot`. -/
def snapshot_manifest (walk : List WalkEntry) : List (List (List Char)) :=
  walk.flatMap snapshot_entry_files

/-- The relative paths written into the zip by `create_snapshot`; the loop
calls `z.write` and appends to the manifest with the same `rel`, in
lockstep. -/
def snapshot_archive_entries (walk : List WalkEntry) : List (List (List Char)) :=
  walk.flatMap snapshot_entry_files

/-
Concrete environments used to instantiate the theorems below.  `ForgeEnv`
fields, in order: freezeFlag, changeBudgetPct, requireGreen, original,
touchTs, cfgPatterns, triggers, maxNoAck, ackFileExists, testUnits.
-/

/-- A 20-line target file; the touch proposal adds exactly one new line,
so the computed delta is 1/20 = 5%. -/
def env20 : ForgeEnv :=
  ⟨false, 5, true,
   "l01\nl02\nl03\nl04\nl05\nl06\nl07\nl08\nl09\nl10\nl11\nl12\nl13\nl14\nl15\nl16\nl17\nl18\nl19\nl20".data,
   "T".data, [], [], 5, false, []⟩

/-- Strategy `regen` is in the escalation trigger list and the
acknowledgment artifact exists at the workspace root. -/
def envAck : ForgeEnv :=
  ⟨false, 5, true, [], "T".data, [], ["regen".data], 5, true, []⟩

/-- Escalation triggers by threshold (delta 100% > 0%) and the
acknowledgment artifact exists. -/
def envAckPct : ForgeEnv :=
  ⟨false, 5, true, [], "T".data, [], [], 0, true, []⟩

/-- The freeze flag is set. -/
def envFrozen : ForgeEnv :=
  ⟨true, 5, true, [], "T".data, [], [], 5, false, []⟩

/-- A test unit that passes exactly when the registry content it observes
carries the repair touch marker. -/
def unit_marker : TestUnit :=
  ⟨"test_marker".data, fun reg => .value (containsSub touchMarker reg)⟩

/-- Budgets are wide open, require-green-tests is set, and the only test
unit checks for the proposed change: it passes on the staged content and
fails on the live content. -/
def envGate : ForgeEnv :=
  ⟨false, 200, true, [], "T".data, [], [], 200, false, [unit_marker]⟩

/-- A configured policy pattern whose source text does not compile. -/
def bad_pattern : Pattern := ⟨"[".data, false, fun _ => false⟩

/-- The target content contains a call to `eval`, and the policy file
contributes one invalid pattern. -/
def envEval : ForgeEnv :=
  ⟨false, 5, true, "x = eval(y)".data, "T".data, [bad_pattern], [], 5, false, []⟩

/-- An `os.walk` listing in which the staging area `.forge` holds a
`shadow` subtree with a file in it, as `run_repair` leaves behind. -/
def walkShadow : List WalkEntry :=
  [([], ["forge.py".data]),
   (["snapshots".data], ["old.zip".data]),
   ([".forge".data], ["plan.json".data]),
   ([".forge".data, "shadow".data], ["forge.py".data])]

/-- Three test units for the gate: pass, raise, pass. -/
def unitsGate : List (List Char × UnitResult) :=
  [("test_a".data, .value true),
   ("test_b".data, .raises "boom".data),
   ("test_c".data, .value true)]

/-- Original content for the added-line semantics witness. -/
def origSub : List Char := "print(1)\nval = compute()".data

/-- Proposal content appending the whole-line `val`, a whitespace-only
line, and a genuinely new line to `origSub`. -/
def newSub : List Char := (origSub ++ "\nval\n   \nbrand_new_line\n".data)

/-! ## Helper lemmas -/

theorem run_tests_foldl_fst (units : List (List Char × UnitResult))
    (acc : Bool × List TestRecord) :
    (units.foldl run_tests_step acc).1 = (acc.1 && units.all (fun u => unit_verdict u.2)) := by
  induction units generalizing acc with
  | nil => simp
  | cons u us ih =>
    cases h : u.2 with
    | value b => simp [run_tests_step, ih, h, unit_verdict, Bool.and_assoc]
    | raises m => simp [run_tests_step, ih, h, unit_verdict]

theorem run_tests_foldl_len (units : List (List Char × UnitResult))
    (acc : Bool × List TestRecord) :
    (units.foldl run_tests_step acc).2.length = acc.2.length + units.length := by
  induction units generalizing acc with
  | nil => simp
  | cons u us ih =>
    cases h : u.2 with
    | value b => simp [run_tests_step, ih, h]; omega
    | raises m => simp [run_tests_step, ih, h]; omega

theorem run_tests_foldl_mem (units : List (List Char × UnitResult))
    (acc : Bool × List TestRecord) (r : TestRecord) (hr : r ∈ acc.2) :
    r ∈ (units.foldl run_tests_step acc).2 := by
  induction units generalizing acc with
  | nil => exact hr
  | cons u us ih =>
    cases h : u.2 with
    | value b =>
      exact ih _ (by simp [run_tests_step, h]; exact Or.inl hr)
    | raises m =>
      exact ih _ (by simp [run_tests_step, h]; exact Or.inl hr)

theorem run_tests_foldl_err (units : List (List Char × UnitResult))
    (acc : Bool × List TestRecord) (n m : List Char)
    (h : (n, UnitResult.raises m) ∈ units) :
    TestRecord.errored n m ∈ (units.foldl run_tests_step acc).2 := by
  induction units generalizing acc with
  | nil => cases h
  | cons u us ih =>
    rcases List.mem_cons.mp h with he | hm
    · subst he
      exact run_tests_foldl_mem us _ _ (by simp [run_tests_step])
    · exact ih _ hm

theorem warn_events_shape {env : ForgeEnv} {e : Event} (he : e ∈ warn_events env) :
    ∃ t, e = Event.warnInvalid t := by
  rcases List.mem_map.mp he with ⟨p, _, hpe⟩
  exact ⟨p.text, hpe.symm⟩

theorem warn_events_filter (env : ForgeEnv) :
    (warn_events env).filter isAuditInsert = [] := by
  rw [List.filter_eq_nil_iff]
  intro e he
  rcases warn_events_shape he with ⟨t, rfl⟩
  simp [isAuditInsert]

theorem audit_count_pre (env : ForgeEnv) (rest : List Event) :
    audit_count (pre_events env ++ rest) = audit_count rest := by
  unfold audit_count pre_events
  rw [List.cons_append, List.filter_cons, List.filter_append, warn_events_filter]
  simp [isAuditInsert]

theorem mem_pre_events {env : ForgeEnv} {e : Event} (he : e ∈ pre_events env) :
    e = Event.planWrite ∨ ∃ t, e = Event.warnInvalid t := by
  rcases List.mem_cons.mp he with h | h
  · exact Or.inl h
  · exact Or.inr (warn_events_shape h)

/-- Exhaustive case analysis of `run_repair`: each reachable terminal,
with the conditions that select it and the exact outcome it returns. -/
theorem run_repair_cases (env : ForgeEnv) (strategy : List Char) :
    (env.freezeFlag = true ∧ run_repair env strategy = ⟨1, []⟩) ∨
    (env.freezeFlag = false ∧ pattern_hits env ≠ [] ∧
      run_repair env strategy = ⟨2, pre_events env ++
        [.auditInsert "warden".data "block".data
          (.patterns ((pattern_hits env).map (·.text)))]⟩) ∨
    (env.freezeFlag = false ∧ pattern_hits env = [] ∧
      need_ack env strategy = true ∧ env.ackFileExists = false ∧
      run_repair env strategy = ⟨5, pre_events env ++
        [.auditInsert "warden".data "escalation_required".data
          (.escalation strategy (repair_pct env) env.maxNoAck)]⟩) ∨
    (env.freezeFlag = false ∧ pattern_hits env = [] ∧
      need_ack env strategy = true ∧ env.ackFileExists = true ∧
      run_repair env strategy = ⟨5, pre_events env⟩) ∨
    (env.freezeFlag = false ∧ pattern_hits env = [] ∧
      need_ack env strategy = false ∧ (repair_pct env : Int) > env.changeBudgetPct ∧
      run_repair env strategy = ⟨3, pre_events env ++
        [.auditInsert "warden".data "reject_change_budget".data
          (.budget (repair_pct env) env.changeBudgetPct)]⟩) ∨
    (env.freezeFlag = false ∧ pattern_hits env = [] ∧
      need_ack env strategy = false ∧ (repair_pct env : Int) ≤ env.changeBudgetPct ∧
      env.requireGreen = true ∧ live_verdict env = false ∧
      run_repair env strategy = ⟨4, pre_events env ++
        [.stageCopy, .auditInsert "tester".data "fail".data .golden]⟩) ∨
    (env.freezeFlag = false ∧ pattern_hits env = [] ∧
      need_ack env strategy = false ∧ (repair_pct env : Int) ≤ env.changeBudgetPct ∧
      (env.requireGreen = false ∨ live_verdict env = true) ∧
      run_repair env strategy = ⟨0, pre_events env ++
        [.stageCopy, .snapZipWrite, .snapIndexInsert,
         .auditInsert "forge".data "snapshot".data .snapshotInfo,
         .liveWrite,
         .auditInsert "rewriter".data "apply".data
           (.applied (added_lines (proposal env) env.original).length)]⟩) := by
  by_cases hfz : env.freezeFlag = true
  · exact Or.inl ⟨hfz, by simp [run_repair, hfz]⟩
  have hfz' : env.freezeFlag = false := by simpa using hfz
  by_cases hh : pattern_hits env = []
  case neg =>
    refine Or.inr (Or.inl ⟨hfz', hh, ?_⟩)
    have hne : (!(pattern_hits env).isEmpty) = true := by
      simp [List.isEmpty_iff, hh]
    simp [run_repair, hfz', hne]
  case pos =>
  have hne : (!(pattern_hits env).isEmpty) = false := by simp [hh]
  by_cases hna : need_ack env strategy = true
  · by_cases hack : env.ackFileExists = true
    · refine Or.inr (Or.inr (Or.inr (Or.inl ⟨hfz', hh, hna, hack, ?_⟩)))
      simp [run_repair, hfz', hne, hna, hack]
    · have hack' : env.ackFileExists = false := by simpa using hack
      refine Or.inr (Or.inr (Or.inl ⟨hfz', hh, hna, hack', ?_⟩))
      simp [run_repair, hfz', hne, hna, hack']
  · have hna' : need_ack env strategy = false := by simpa using hna
    by_cases hbd : (repair_pct env : Int) > env.changeBudgetPct
    · refine Or.inr (Or.inr (Or.inr (Or.inr (Or.inl ⟨hfz', hh, hna', hbd, ?_⟩))))
      simp [run_repair, hfz', hne, hna', hbd]
    · have hbd' : (repair_pct env : Int) ≤ env.changeBudgetPct := not_lt.mp hbd
      by_cases hgt : (env.requireGreen && !(live_verdict env)) = true
      · have hrg : env.requireGreen = true := ((Bool.and_eq_true _ _).mp hgt).1
        have hlv : live_verdict env = false := by
          have := ((Bool.and_eq_true _ _).mp hgt).2
          simpa using this
        refine Or.inr (Or.inr (Or.inr (Or.inr (Or.inr (Or.inl
          ⟨hfz', hh, hna', hbd', hrg, hlv, ?_⟩)))))
        simp [run_repair, hfz', hne, hna', hbd, hgt]
      · have hor : env.requireGreen = false ∨ live_verdict env = true := by
          cases hr : env.requireGreen
          · exact Or.inl rfl
          · cases hl : live_verdict env
            · exact absurd (by simp [hr, hl]) hgt
            · exact Or.inr rfl
        refine Or.inr (Or.inr (Or.inr (Or.inr (Or.inr (Or.inr
          ⟨hfz', hh, hna', hbd', hor, ?_⟩)))))
        have hgt' : (env.requireGreen && !(live_verdict env)) = false := by
          simpa using hgt
        simp [run_repair, hfz', hne, hna', hbd, hgt']

theorem startsWithList_iff (n h : List Char) :
    startsWithList n h = true ↔ ∃ post, h = n ++ post := by
  induction n generalizing h with
  | nil => simp [startsWithList]
  | cons a as ih =>
    cases h with
    | nil =>
      simp [startsWithList]
    | cons b bs =>
      simp only [startsWithList, Bool.and_eq_true, beq_iff_eq, ih, List.cons_append]
      constructor
      · rintro ⟨rfl, post, rfl⟩
        exact ⟨post, rfl⟩
      · rintro ⟨post, heq⟩
        injection heq with h1 h2
        exact ⟨h1.symm, post, h2⟩

theorem containsSub_iff (n h : List Char) :
    containsSub n h = true ↔ ∃ pre post, h = pre ++ n ++ post := by
  induction h with
  | nil =>
    simp only [containsSub, List.isEmpty_iff]
    constructor
    · rintro rfl
      exact ⟨[], [], rfl⟩
    · rintro ⟨pre, post, heq⟩
      rcases List.append_eq_nil.mp heq.symm with ⟨h1, h2⟩
      exact (List.append_eq_nil.mp h1).2
  | cons c rest ih =>
    simp only [containsSub, Bool.or_eq_true, startsWithList_iff, ih]
    constructor
    · rintro (⟨post, hp⟩ | ⟨pre, post, hp⟩)
      · exact ⟨[], post, by simpa using hp⟩
      · exact ⟨c :: pre, post, by simp [hp]⟩
    · rintro ⟨pre, post, heq⟩
      cases pre with
      | nil =>
        exact Or.inl ⟨post, by simpa using heq⟩
      | cons p ps =>
        rw [List.cons_append, List.cons_append] at heq
        injection heq with h1 h2
        exact Or.inr ⟨ps, post, h2⟩

theorem pyStrip_eq_nil_iff (l : List Char) : pyStrip l = [] ↔ stripBlank l = true := by
  unfold pyStrip stripBlank
  rw [List.reverse_eq_nil_iff, List.dropWhile_eq_nil_iff, List.all_eq_true]
  constructor
  · intro hd x hx
    have hsplit : x ∈ List.takeWhile pyIsSpace l ++ List.dropWhile pyIsSpace l := by
      rw [List.takeWhile_append_dropWhile]
      exact hx
    rcases List.mem_append.mp hsplit with h | h
    · exact List.mem_takeWhile_imp h
    · exact hd x (List.mem_reverse.mpr h)
  · intro hall x hx
    exact hall x ((List.dropWhile_sublist _).subset (List.mem_reverse.mp hx))

theorem warn_mem {env : ForgeEnv} {p : Pattern}
    (hp : p ∈ load_repair_policy_patterns env.cfgPatterns)
    (hc : p.compiles = false) :
    Event.warnInvalid p.text ∈ warn_events env := by
  unfold warn_events
  exact List.mem_map_of_mem _ (List.mem_filter.mpr ⟨hp, by simp [hc]⟩)

theorem run_repair_trace_pre (env : ForgeEnv) (strategy : List Char)
    (hfz : env.freezeFlag = false) :
    ∃ rest, (run_repair env strategy).trace = pre_events env ++ rest := by
  rcases run_repair_cases env strategy with
    ⟨hf, _⟩ | ⟨_, _, heq⟩ | ⟨_, _, _, _, heq⟩ | ⟨_, _, _, _, heq⟩ |
    ⟨_, _, _, _, heq⟩ | ⟨_, _, _, _, _, _, heq⟩ | ⟨_, _, _, _, _, heq⟩
  · rw [hfz] at hf; cases hf
  · exact ⟨_, by rw [heq]⟩
  · exact ⟨_, by rw [heq]⟩
  · exact ⟨[], by rw [heq, List.append_nil]⟩
  · exact ⟨_, by rw [heq]⟩
  · exact ⟨_, by rw [heq]⟩
  · exact ⟨_, by rw [heq]⟩

theorem not_mem_pre_stage {env : ForgeEnv} {e : Event}
    (h1 : e ≠ Event.planWrite) (h2 : ∀ t, e ≠ Event.warnInvalid t)
    (h3 : e ≠ Event.stageCopy) :
    e ∉ pre_events env ++ [Event.stageCopy] := by
  intro hmem
  rcases List.mem_append.mp hmem with h | h
  · rcases mem_pre_events h with h | ⟨t, ht⟩
    · exact h1 h
    · exact h2 t ht
  · rw [List.mem_singleton] at h
    exact h3 h

/-! ## Claim theorems -/

/-- C1: with strategy `regen` in the configured trigger list and the
acknowledgment artifact present at the workspace root, `run_repair`
nevertheless returns status 5: the `return 5` at forge.py:303 sits one
level outside the artifact-existence check, so the presence of the
artifact never lets the attempt proceed, contradicting the code's own
printed instruction that creating the file lets the attempt proceed. -/
theorem C1_ack_present_still_returns_5 :
    envAck.ackFileExists = true ∧
    envAck.triggers.contains "regen".data = true ∧
    (run_repair envAck "regen".data).status = 5 := by
  decide

/-- C2 counterexample: in `envGate` every policy gate passes and the sole
test unit succeeds exactly on content carrying the proposed change, so a
gate running against the staged copy would be green (`staged_verdict` is
`true`); yet `run_repair` returns status 4, because `run_tests` discovers
and runs the units of the live workspace, which observe the pre-change
registry content. -/
theorem C2_cx_gate_runs_live_units :
    staged_verdict envGate = true ∧
    envGate.requireGreen = true ∧
    (run_repair envGate "lint".data).status = 4 := by
  decide

/-- C2 amended: for every attempt that reaches the Testing state, the
verdict `run_repair` acts on is the live-workspace verdict — the units
reached through the module-level `TESTS_DIR` of the live root, observing
the pre-commit registry — not the staged one: the attempt fails with
status 4 exactly when require-green-tests is set and the live verdict is
false, and otherwise commits with status 0. -/
theorem C2_amended_gate_runs_live (env : ForgeEnv) (strategy : List Char)
    (hfz : env.freezeFlag = false)
    (hh : pattern_hits env = [])
    (hna : need_ack env strategy = false)
    (hbd : (repair_pct env : Int) ≤ env.changeBudgetPct) :
    ((run_repair env strategy).status = 4 ↔
      env.requireGreen = true ∧ live_verdict env = false) ∧
    ((run_repair env strategy).status = 0 ↔
      (env.requireGreen = false ∨ live_verdict env = true)) := by
  rcases run_repair_cases env strategy with
    ⟨hf, _⟩ | ⟨_, h2, _⟩ | ⟨_, _, h3, _, _⟩ | ⟨_, _, h3, _, _⟩ |
    ⟨_, _, _, h5, _⟩ | ⟨_, _, _, _, hrg, hlv, heq⟩ | ⟨_, _, _, _, hor, heq⟩
  · rw [hfz] at hf; cases hf
  · exact absurd hh h2
  · rw [hna] at h3; cases h3
  · rw [hna] at h3; cases h3
  · exact absurd h5 (not_lt.mpr hbd)
  · rw [heq]
    constructor
    · simpa using ⟨hrg, hlv⟩
    · simp [hrg, hlv]
  · rw [heq]
    rcases hor with h | h <;> simp [h]

/-- C2 amended witness: the theorem applied to `envGate`, whose unit
fails on the live content, gives status 4. -/
theorem C2_amended_witness :
    (run_repair envGate "lint".data).status = 4 :=
  ((C2_amended_gate_runs_live envGate "lint".data rfl rfl rfl
    (by decide)).1).mpr ⟨rfl, by decide⟩

/-- C3 counterexample: a frozen attempt terminates with status 1 but
inserts no audit row at all (forge.py:240-242 returns before any `log`
call), so N frozen repairs yield zero audit entries, not N. -/
theorem C3_cx_frozen_inserts_no_audit_row :
    (run_repair envFrozen "lint".data).status = 1 ∧
    audit_count (run_repair envFrozen "lint".data).trace = 0 ∧
    Event.liveWrite ∉ (run_repair envFrozen "lint".data).trace := by
  decide

/-- C3 amended: the audit rows per terminal outcome are: none when
frozen (and no commit occurs), one for blocked, budget-exceeded,
escalation-with-artifact-absent and tests-failed, none for
escalation-with-artifact-present, and two on success (the snapshot entry
and the apply entry). -/
theorem C3_amended_audit_rows (env : ForgeEnv) (strategy : List Char) :
    ((run_repair env strategy).status = 1 →
      audit_count (run_repair env strategy).trace = 0 ∧
      Event.liveWrite ∉ (run_repair env strategy).trace) ∧
    ((run_repair env strategy).status = 2 →
      audit_count (run_repair env strategy).trace = 1) ∧
    ((run_repair env strategy).status = 3 →
      audit_count (run_repair env strategy).trace = 1) ∧
    ((run_repair env strategy).status = 4 →
      audit_count (run_repair env strategy).trace = 1) ∧
    ((run_repair env strategy).status = 5 →
      audit_count (run_repair env strategy).trace =
        (if env.ackFileExists then 0 else 1)) ∧
    ((run_repair env strategy).status = 0 →
      audit_count (run_repair env strategy).trace = 2) := by
  rcases run_repair_cases env strategy with
    ⟨_, heq⟩ | ⟨_, _, heq⟩ | ⟨_, _, _, hack, heq⟩ | ⟨_, _, _, hack, heq⟩ |
    ⟨_, _, _, _, heq⟩ | ⟨_, _, _, _, _, _, heq⟩ | ⟨_, _, _, _, _, heq⟩ <;> rw [heq]
  · exact ⟨fun _ => ⟨rfl, List.not_mem_nil _⟩, fun h => by simp at h,
      fun h => by simp at h, fun h => by simp at h,
      fun h => by simp at h, fun h => by simp at h⟩
  · refine ⟨fun h => by simp at h, fun _ => ?_, fun h => by simp at h,
      fun h => by simp at h, fun h => by simp at h,
      fun h => by simp at h⟩
    rw [audit_count_pre]; rfl
  · refine ⟨fun h => by simp at h, fun h => by simp at h,
      fun h => by simp at h, fun h => by simp at h,
      fun _ => ?_, fun h => by simp at h⟩
    rw [hack, audit_count_pre]; rfl
  · refine ⟨fun h => by simp at h, fun h => by simp at h,
      fun h => by simp at h, fun h => by simp at h,
      fun _ => ?_, fun h => by simp at h⟩
    rw [hack]
    have hnil := audit_count_pre env []
    rw [List.append_nil] at hnil
    rw [hnil]
    rfl
  · refine ⟨fun h => by simp at h, fun h => by simp at h,
      fun _ => ?_, fun h => by simp at h, fun h => by simp at h,
      fun h => by simp at h⟩
    rw [audit_count_pre]; rfl
  · refine ⟨fun h => by simp at h, fun h => by simp at h,
      fun h => by simp at h, fun _ => ?_, fun h => by simp at h,
      fun h => by simp at h⟩
    rw [audit_count_pre]; rfl
  · refine ⟨fun h => by simp at h, fun h => by simp at h,
      fun h => by simp at h, fun h => by simp at h,
      fun h => by simp at h, fun _ => ?_⟩
    rw [audit_count_pre]; rfl

/-- C3 amended witness: the theorem applied to the frozen environment
(zero rows) and to a successful attempt (two rows). -/
theorem C3_amended_witness :
    audit_count (run_repair envFrozen "lint".data).trace = 0 ∧
    audit_count (run_repair env20 "lint".data).trace = 2 :=
  ⟨((C3_amended_audit_rows envFrozen "lint".data).1 (by decide)).1,
   (C3_amended_audit_rows env20 "lint".data).2.2.2.2.2 (by decide)⟩

/-- C4 counterexample: `create_snapshot` skips only the walk folders that
are exactly `SNAP_DIR` or `FORGE_TMP`, so with a `shadow` subtree inside
`.forge` — exactly what a prior `run_repair` staging leaves behind — the
manifest includes a path under the staging directory. -/
theorem C4_cx_shadow_subtree_in_manifest :
    [".forge".data, "shadow".data, "forge.py".data] ∈ snapshot_manifest walkShadow ∧
    [".forge".data, "shadow".data, "forge.py".data].head? = some ".forge".data := by
  decide

/-- C4 amended: a manifest path is never a file directly inside the
snapshot directory or directly inside `.forge` (deeper subtrees such as
`.forge/shadow` may appear), never contains a `__pycache__` component,
and every manifest path is written into the produced archive. -/
theorem C4_amended_manifest_paths (walk : List WalkEntry) (p : List (List Char))
    (hp : p ∈ snapshot_manifest walk) :
    p.dropLast ≠ ["snapshots".data] ∧
    p.dropLast ≠ [".forge".data] ∧
    "__pycache__".data ∉ p ∧
    p ∈ snapshot_archive_entries walk := by
  have harch : p ∈ snapshot_archive_entries walk := hp
  rcases List.mem_flatMap.mp hp with ⟨e, he, hpe⟩
  unfold snapshot_entry_files at hpe
  by_cases hskip : (e.1 == ["snapshots".data] || e.1 == [".forge".data]) = true
  · rw [if_pos hskip] at hpe
    cases hpe
  · rw [if_neg hskip] at hpe
    rcases List.mem_filterMap.mp hpe with ⟨f, _, hguard⟩
    by_cases hpc : ((e.1 ++ [f]).contains "__pycache__".data) = true
    · rw [if_pos hpc] at hguard
      cases hguard
    · rw [if_neg hpc] at hguard
      injection hguard with hpeq
      subst hpeq
      have hskip' := hskip
      simp only [Bool.or_eq_true, beq_iff_eq, not_or] at hskip'
      refine ⟨?_, ?_, ?_, harch⟩
      · rw [List.dropLast_concat]
        exact hskip'.1
      · rw [List.dropLast_concat]
        exact hskip'.2
      · intro hmem
        exact hpc (List.elem_eq_true_of_mem hmem)

/-- C4 amended witness: the theorem applied to the shadow walk at the
`.forge/shadow/forge.py` path. -/
theorem C4_amended_witness :
    [".forge".data, "shadow".data, "forge.py".data].dropLast ≠ [".forge".data] ∧
    [".forge".data, "shadow".data, "forge.py".data] ∈ snapshot_archive_entries walkShadow :=
  ⟨(C4_amended_manifest_paths walkShadow _ (by decide)).2.1,
   (C4_amended_manifest_paths walkShadow _ (by decide)).2.2.2⟩

/-- C5: `run_repair` returns 5 not only when escalation is required and
the acknowledgment artifact is absent: here escalation triggers by the
threshold alone, the artifact is present, and the status is still 5
(with no audit row), so the documented condition for code 5 does not
hold on the code. -/
theorem C5_status5_despite_artifact :
    envAckPct.ackFileExists = true ∧
    envAckPct.triggers = [] ∧
    (run_repair envAckPct "lint".data).status = 5 := by
  decide

/-- C6: the content scan loads the configured patterns with the built-in
safety rails appended unconditionally; a pattern that fails to compile
produces a warning in the trace and never contributes to the hits; and
when any valid pattern matches the proposed content the attempt is
blocked with status 2, logging every matched pattern's text. -/
theorem C6_content_scan (env : ForgeEnv) (strategy : List Char)
    (hfz : env.freezeFlag = false) :
    (∀ b ∈ builtin_rails, b ∈ load_repair_policy_patterns env.cfgPatterns) ∧
    (∀ p ∈ load_repair_policy_patterns env.cfgPatterns, p.compiles = false →
      Event.warnInvalid p.text ∈ (run_repair env strategy).trace ∧
      p ∉ pattern_hits env) ∧
    (pattern_hits env ≠ [] →
      (run_repair env strategy).status = 2 ∧
      Event.auditInsert "warden".data "block".data
        (Detail.patterns ((pattern_hits env).map (·.text))) ∈
        (run_repair env strategy).trace ∧
      (∀ q ∈ valid_patterns env, q.search (proposal env) = true →
        q.text ∈ (pattern_hits env).map (·.text))) := by
  refine ⟨fun b hb => List.mem_append.mpr (Or.inr hb), fun p hp hc => ?_, fun hne => ?_⟩
  · constructor
    · rcases run_repair_trace_pre env strategy hfz with ⟨rest, hrest⟩
      rw [hrest]
      exact List.mem_append.mpr (Or.inl (List.mem_cons.mpr (Or.inr (warn_mem hp hc))))
    · intro hmem
      have hv : p ∈ valid_patterns env :=
        (List.mem_filter.mp hmem).1
      have := (List.mem_filter.mp hv).2
      rw [hc] at this
      cases this
  · rcases run_repair_cases env strategy with
      ⟨hf, _⟩ | ⟨_, _, heq⟩ | ⟨_, hh, _⟩ | ⟨_, hh, _⟩ |
      ⟨_, hh, _⟩ | ⟨_, hh, _⟩ | ⟨_, hh, _⟩
    · rw [hfz] at hf; cases hf
    · rw [heq]
      refine ⟨rfl, ?_, ?_⟩
      · exact List.mem_append.mpr (Or.inr (List.mem_singleton.mpr rfl))
      · intro q hq hsearch
        exact List.mem_map_of_mem _ (List.mem_filter.mpr ⟨hq, hsearch⟩)
    · exact absurd hh hne
    · exact absurd hh hne
    · exact absurd hh hne
    · exact absurd hh hne
    · exact absurd hh hne

/-- C6 witness: the theorem applied to `envEval`, whose policy file holds
one non-compiling pattern and whose target content calls `eval`. -/
theorem C6_witness :
    Event.warnInvalid bad_pattern.text ∈ (run_repair envEval "lint".data).trace ∧
    (run_repair envEval "lint".data).status = 2 ∧
    eval_rail.text ∈ (pattern_hits envEval).map (·.text) := by
  have h := C6_content_scan envEval "lint".data rfl
  have hmem : bad_pattern ∈ load_repair_policy_patterns envEval.cfgPatterns :=
    List.mem_append.mpr (Or.inl (List.mem_singleton.mpr rfl))
  have hne : pattern_hits envEval ≠ [] := by
    have hlen : (pattern_hits envEval).length = 1 := rfl
    intro hnil
    rw [hnil] at hlen
    cases hlen
  refine ⟨(h.2.1 bad_pattern hmem rfl).1, (h.2.2 hne).1, ?_⟩
  refine (h.2.2 hne).2.2 eval_rail ?_ (by decide)
  have hv : valid_patterns envEval = builtin_rails := rfl
  rw [hv]
  exact List.mem_cons_self _ _

/-- C7: the computed delta is capped at 100 and compared strictly, so an
attempt whose delta is less than or equal to the plain budget (and within
the escalation threshold, with no trigger strategy) is never rejected
with status 3 nor escalated with status 5 — the boundary is inclusive. -/
theorem C7_budget_boundary_inclusive (env : ForgeEnv) (strategy : List Char)
    (hfz : env.freezeFlag = false)
    (hh : pattern_hits env = [])
    (htr : env.triggers.contains strategy = false)
    (hmax : (repair_pct env : Int) ≤ env.maxNoAck)
    (hbud : (repair_pct env : Int) ≤ env.changeBudgetPct) :
    repair_pct env ≤ 100 ∧
    (run_repair env strategy).status ≠ 3 ∧
    (run_repair env strategy).status ≠ 5 := by
  have hna : need_ack env strategy = false := by
    unfold need_ack
    rw [htr, decide_eq_false (not_lt.mpr hmax)]
    rfl
  have hcap : repair_pct env ≤ 100 := by
    unfold repair_pct delta_pct
    exact min_le_left _ _
  refine ⟨hcap, ?_, ?_⟩ <;>
  rcases run_repair_cases env strategy with
    ⟨hf, _⟩ | ⟨_, hx, _⟩ | ⟨_, _, hk, _, _⟩ | ⟨_, _, hk, _, _⟩ |
    ⟨_, _, _, hgt, heq⟩ | ⟨_, _, _, _, _, _, heq⟩ | ⟨_, _, _, _, _, heq⟩ <;>
  first
    | (rw [hfz] at hf; cases hf)
    | exact absurd hh hx
    | (rw [hna] at hk; cases hk)
    | exact absurd hgt (not_lt.mpr hbud)
    | (rw [heq]; simp)

/-- C7 witness: a 20-line original with a one-line addition gives a delta
of exactly 5%, which is allowed against a 5% budget. -/
theorem C7_witness :
    repair_pct env20 = 5 ∧ env20.changeBudgetPct = 5 ∧
    (run_repair env20 "lint".data).status ≠ 3 ∧
    (run_repair env20 "lint".data).status ≠ 5 := by
  have h := C7_budget_boundary_inclusive env20 "lint".data rfl rfl rfl
    (by decide) (by decide)
  exact ⟨by decide, rfl, h.2.1, h.2.2⟩

/-- C8: the test gate records every unit (a raising unit is captured as a
record, never propagated, and the remaining units still run, so the
record count equals the unit count), the aggregate verdict is the
conjunction of the per-unit verdicts (a raising unit counting as false),
and an empty set of units yields `true`. -/
theorem C8_test_gate_aggregate (units : List (List Char × UnitResult)) :
    (run_tests units).1 = units.all (fun u => unit_verdict u.2) ∧
    (run_tests units).2.length = units.length ∧
    (∀ n m, (n, UnitResult.raises m) ∈ units →
      TestRecord.errored n m ∈ (run_tests units).2) ∧
    run_tests [] = (true, []) := by
  refine ⟨?_, ?_, ?_, rfl⟩
  · simpa using run_tests_foldl_fst units (true, [])
  · simpa using run_tests_foldl_len units (true, [])
  · exact fun n m h => run_tests_foldl_err units (true, []) n m h

/-- C8 witness: with a raising unit between two passing units, the
aggregate is false, the fault is recorded, and all three records exist. -/
theorem C8_witness :
    (run_tests unitsGate).1 = false ∧
    TestRecord.errored "test_b".data "boom".data ∈ (run_tests unitsGate).2 ∧
    (run_tests unitsGate).2.length = 3 :=
  ⟨by decide, (C8_test_gate_aggregate unitsGate).2.2.1 _ _ (by decide), by decide⟩

/-- C9: a frozen attempt produces an empty effect trace (in particular no
live write), and whenever the live target file is written, the snapshot
(zip write, index insert and its audit entry) immediately precedes the
write, no snapshot event occurs before that block or after the write, and
only the apply audit entry follows. -/
theorem C9_snapshot_precedes_commit (env : ForgeEnv) (strategy : List Char) :
    (env.freezeFlag = true → (run_repair env strategy).trace = []) ∧
    (Event.liveWrite ∈ (run_repair env strategy).trace →
      ∃ pre n, (run_repair env strategy).trace =
        pre ++ [Event.snapZipWrite, Event.snapIndexInsert,
                Event.auditInsert "forge".data "snapshot".data Detail.snapshotInfo,
                Event.liveWrite,
                Event.auditInsert "rewriter".data "apply".data (Detail.applied n)] ∧
        Event.snapZipWrite ∉ pre ∧ Event.snapIndexInsert ∉ pre ∧
        Event.liveWrite ∉ pre) := by
  rcases run_repair_cases env strategy with
    ⟨hf, heq⟩ | ⟨hf, _, heq⟩ | ⟨hf, _, _, _, heq⟩ | ⟨hf, _, _, _, heq⟩ |
    ⟨hf, _, _, _, heq⟩ | ⟨hf, _, _, _, _, _, heq⟩ | ⟨hf, _, _, _, _, heq⟩ <;>
    rw [heq] <;> constructor
  · exact fun _ => rfl
  · intro hl; cases hl
  · intro hfz; rw [hf] at hfz; cases hfz
  · intro hl
    rcases List.mem_append.mp hl with h | h
    · rcases mem_pre_events h with h | ⟨t, h⟩ <;> cases h
    · rw [List.mem_singleton] at h; cases h
  · intro hfz; rw [hf] at hfz; cases hfz
  · intro hl
    rcases List.mem_append.mp hl with h | h
    · rcases mem_pre_events h with h | ⟨t, h⟩ <;> cases h
    · rw [List.mem_singleton] at h; cases h
  · intro hfz; rw [hf] at hfz; cases hfz
  · intro hl
    rcases mem_pre_events hl with h | ⟨t, h⟩ <;> cases h
  · intro hfz; rw [hf] at hfz; cases hfz
  · intro hl
    rcases List.mem_append.mp hl with h | h
    · rcases mem_pre_events h with h | ⟨t, h⟩ <;> cases h
    · rw [List.mem_singleton] at h; cases h
  · intro hfz; rw [hf] at hfz; cases hfz
  · intro hl
    rcases List.mem_append.mp hl with h | h
    · rcases mem_pre_events h with h | ⟨t, h⟩ <;> cases h
    · simp at h
  · intro hfz; rw [hf] at hfz; cases hfz
  · intro _
    refine ⟨pre_events env ++ [Event.stageCopy],
      (added_lines (proposal env) env.original).length, by simp, ?_, ?_, ?_⟩
    · exact not_mem_pre_stage (by simp) (fun t => by simp) (by simp)
    · exact not_mem_pre_stage (by simp) (fun t => by simp) (by simp)
    · exact not_mem_pre_stage (by simp) (fun t => by simp) (by simp)

/-- C9 witness: the theorem applied to the frozen environment and to a
successful attempt on `env20`. -/
theorem C9_witness :
    (run_repair envFrozen "lint".data).trace = [] ∧
    (∃ pre n, (run_repair env20 "lint".data).trace =
      pre ++ [Event.snapZipWrite, Event.snapIndexInsert,
              Event.auditInsert "forge".data "snapshot".data Detail.snapshotInfo,
              Event.liveWrite,
              Event.auditInsert "rewriter".data "apply".data (Detail.applied n)] ∧
      Event.snapZipWrite ∉ pre ∧ Event.snapIndexInsert ∉ pre ∧
      Event.liveWrite ∉ pre) :=
  ⟨(C9_snapshot_precedes_commit envFrozen "lint".data).1 rfl,
   (C9_snapshot_precedes_commit env20 "lint".data).2 (by decide)⟩

/-- C10: a proposal line counts as added exactly when it is a line of the
proposal, non-empty after stripping whitespace, and occurs nowhere as a
contiguous substring of the original content — so whitespace-only lines
never contribute, and a line occurring inside a longer original line does
not count as added. -/
theorem C10_added_line_semantics (new orig ln : List Char) :
    ln ∈ added_lines new orig ↔
      ln ∈ splitlines new ∧ pyStrip ln ≠ [] ∧
      ¬ ∃ pre post, orig = pre ++ ln ++ post := by
  unfold added_lines
  rw [List.mem_filter]
  constructor
  · rintro ⟨h1, h2⟩
    simp only [Bool.and_eq_true, Bool.not_eq_true'] at h2
    refine ⟨h1, ?_, ?_⟩
    · intro hnil
      rw [pyStrip_eq_nil_iff] at hnil
      rw [h2.1] at hnil
      cases hnil
    · intro hex
      have hc := (containsSub_iff ln orig).mpr hex
      rw [h2.2] at hc
      cases hc
  · rintro ⟨h1, h2, h3⟩
    refine ⟨h1, ?_⟩
    simp only [Bool.and_eq_true, Bool.not_eq_true']
    constructor
    · cases hsb : stripBlank ln
      · rfl
      · exact absurd ((pyStrip_eq_nil_iff ln).mpr hsb) h2
    · cases hcs : containsSub ln orig
      · rfl
      · exact absurd ((containsSub_iff ln orig).mp hcs) h3

/-- C10 witness: in `newSub` over `origSub`, the line `val` (present only
inside the longer original line `val = compute()`) and the whitespace-only
line do not count as added, while the genuinely new line does. -/
theorem C10_witness :
    "val".data ∉ added_lines newSub origSub ∧
    "   ".data ∉ added_lines newSub origSub ∧
    "brand_new_line".data ∈ added_lines newSub origSub := by
  refine ⟨fun h => ?_, fun h => ?_, ?_⟩
  · exact ((C10_added_line_semantics newSub origSub "val".data).mp h).2.2
      ⟨"print(1)\n".data, " = compute()".data, by decide⟩
  · exact ((C10_added_line_semantics newSub origSub "   ".data).mp h).2.1 rfl
  · refine (C10_added_line_semantics newSub origSub "brand_new_line".data).mpr
      ⟨by decide, by decide, fun hex => ?_⟩
    have hc := (containsSub_iff "brand_new_line".data origSub).mpr hex
    cases hc

end GhostForge
